import Mathlib

/-!
A shallow embedding of the FRU (Field Replaceable Unit) inventory access
engine of OpenIPMI (`fru.c`).  The read engine (inventory-area handler and
data handler with capability back-off and tolerant truncation), the write
engine (update-record insertion, write batching, device-busy retry), and the
completion routines are translated as pure Lean functions over an explicit
FRU state record.  External effects (IPMI command transmission, locking,
memory management, user callbacks, decoder hooks) are represented either as
explicit outcome constructors or as an ordered list of `FruAct`s, so that
the sequencing of side effects performed by a completion routine can be
stated and proved.
-/

/-! ### Constants from fru.c -/

def MAX_FRU_DATA_FETCH : Nat := 32
def FRU_DATA_FETCH_DECR : Nat := 8
def MIN_FRU_DATA_FETCH : Nat := 16
def MAX_FRU_DATA_WRITE : Nat := 16
def MAX_FRU_WRITE_RETRIES : Nat := 30

/-- Modelled from the spec: the IPMI completion-code constants named in the
spec (*cannot-return-req-length*, *requested-data-length-exceeded*,
*request-data-length-invalid*, *timeout*, *unknown*) come from the header
`OpenIPMI/ipmi_msgbits.h` / `ipmi_err.h`, which is not part of the given
sources.  The numeric values are the standard IPMI completion codes; the
claims only depend on these five codes forming the back-off set. -/
def IPMI_CANNOT_RETURN_REQ_LENGTH_CC : Nat := 0xca

/-- Modelled from the spec: see `IPMI_CANNOT_RETURN_REQ_LENGTH_CC`. -/
def IPMI_REQUESTED_DATA_LENGTH_EXCEEDED_CC : Nat := 0xc8

/-- Modelled from the spec: see `IPMI_CANNOT_RETURN_REQ_LENGTH_CC`. -/
def IPMI_REQUEST_DATA_LENGTH_INVALID_CC : Nat := 0xc7

/-- Modelled from the spec: see `IPMI_CANNOT_RETURN_REQ_LENGTH_CC`. -/
def IPMI_TIMEOUT_CC : Nat := 0xc3

/-- Modelled from the spec: see `IPMI_CANNOT_RETURN_REQ_LENGTH_CC`. -/
def IPMI_UNKNOWN_ERR_CC : Nat := 0xff

/-! ### Error values

`fru.c` reports errors either as plain errno values (EINVAL, EMSGSIZE,
ENOMEM, ECANCELED) or as `IPMI_IPMI_ERR_VAL(cc)` (an injective embedding of
an IPMI completion code, defined in the missing header `ipmi_err.h`).  We
model the error domain as an inductive type; `ok` stands for 0. -/

inductive FruErr where
  | ok
  | eCANCELED
  | eINVAL
  | eMSGSIZE
  | eNOMEM
  | eNOSYS
  | eAGAIN
  | ipmiErr (cc : Nat)
deriving DecidableEq

/-! ### The FRU state

The fields of `struct ipmi_fru_s` that the verified functions read or
write.  Identity/addressing fields other than `device_id` and fields used
only by the registry/refcount machinery are omitted; external pointers
(`data`, `rec_data`) are `Option`s with `none` for NULL.  The C fields
`last_cmd` (a fixed array) and `last_cmd_len` are together modelled as the
list `last_cmd` of exactly the `last_cmd_len` valid bytes. -/

structure FruUpdate where
  offset : Nat
  length : Nat
deriving DecidableEq

structure Fru where
  deleted : Bool
  in_use : Bool
  device_id : Nat
  access_by_words : Nat
  data : Option (List Nat)
  data_len : Nat
  curr_pos : Nat
  fetch_size : Nat
  update_recs : List FruUpdate
  last_cmd : List Nat
  retry_count : Nat
  rec_data : Option Nat
deriving DecidableEq

/-- The state `ipmi_fru_alloc_internal` builds: `memset(fru, 0, ...)`, then
`refcount = 2`, `in_use = 1`, `fetch_size = MAX_FRU_DATA_FETCH`. -/
def initFru : Fru :=
  { deleted := false
  , in_use := true
  , device_id := 0
  , access_by_words := 0
  , data := none
  , data_len := 0
  , curr_pos := 0
  , fetch_size := MAX_FRU_DATA_FETCH
  , update_recs := []
  , last_cmd := []
  , retry_count := 0
  , rec_data := none }

/-! ### Side-effect actions of the completion routines

The completion routines perform a fixed sequence of side effects; we record
them in order.  `freeData` stands for `if (fru->data) ipmi_mem_free(fru->data);
fru->data = NULL;`, `ref`/`deref` for `fru_get`/`fru_put`, `callback` for
invoking whichever user callback is installed, `callDecoders` for
`fru_call_decoders`, `writeHook` for `fru->ops->write`, `writeCompleteHook`
for `fru->ops->write_complete`, and `sendCmd` for handing a command to the
IPMI transport. -/

inductive FruAct where
  | freeData
  | clearInUse
  | unlock
  | callback (err : FruErr)
  | deref
  | ref
  | callDecoders
  | writeHook
  | writeCompleteHook
  | sendCmd
deriving DecidableEq

/-! ### Read engine -/

/-- `fetch_complete(domain, fru, err)`.  The decoders run only on success
(`err = 0`); their collective result (stored into `rec_data` by the
decoders themselves) is the external input `decodeRes`, which becomes the
error reported to the user callback on the success path.  Returns the final
FRU state together with the ordered list of side effects. -/
def fetch_complete (fru : Fru) (err : FruErr) (decodeRes : FruErr) :
    Fru × List FruAct :=
  ( { fru with data := none, in_use := false }
  , (if err = .ok then [FruAct.callDecoders] else [])
    ++ [FruAct.freeData, FruAct.clearInUse, FruAct.unlock,
        FruAct.callback (if err = .ok then decodeRes else err), FruAct.deref] )

/-- The read chunk size: `to_read = data_len - curr_pos; if (to_read >
fetch_size) to_read = fetch_size;`.  The C variables are `int`s; whenever
the engine issues a request it has `curr_pos < data_len`, so the
subtraction never goes negative and the computation is `min`. -/
def to_read (fru : Fru) : Nat :=
  min (fru.data_len - fru.curr_pos) fru.fetch_size

/-- The four command bytes of a `Read FRU Data` request built by
`request_next_data`: `device_id`, 16-bit little-endian
`curr_pos >> access_by_words`, and the byte `to_read >> access_by_words`. -/
structure ReadReq where
  device_id : Nat
  offsetLo : Nat
  offsetHi : Nat
  count : Nat
deriving DecidableEq

/-- `request_next_data` (the command it posts; transmission is external). -/
def request_next_data (fru : Fru) : ReadReq :=
  { device_id := fru.device_id
  , offsetLo := (fru.curr_pos >>> fru.access_by_words) % 256
  , offsetHi := ((fru.curr_pos >>> fru.access_by_words) / 256) % 256
  , count := (to_read fru >>> fru.access_by_words) % 256 }

/-- Outcome of one response-handler invocation of the read engine:
either `fetch_complete(fru', err)` was called, or the handler issued the
next `Read FRU Data` request (`request_next_data`) and unlocked. -/
inductive ReadOutcome where
  | complete (err : FruErr) (fru : Fru)
  | next (fru : Fru) (req : ReadReq)
deriving DecidableEq

/-- The five completion codes of the read back-off set, exactly the
disjunction tested in `fru_data_handler`. -/
def backoff_cc (cc : Nat) : Bool :=
  (cc == IPMI_CANNOT_RETURN_REQ_LENGTH_CC)
  || (cc == IPMI_REQUESTED_DATA_LENGTH_EXCEEDED_CC)
  || (cc == IPMI_REQUEST_DATA_LENGTH_INVALID_CC)
  || (cc == IPMI_TIMEOUT_CC)
  || (cc == IPMI_UNKNOWN_ERR_CC)

/-- `memcpy(fru->data + pos, src, src.length)` on the buffer model. -/
def bufWrite (buf : List Nat) (pos : Nat) (src : List Nat) : List Nat :=
  buf.take pos ++ src ++ buf.drop (pos + src.length)

/-- `fru_data_handler`.  `msg` is the response data
(`data[0]` = completion code, `data[1]` = returned count, then payload);
`msg.length` is `msg->data_len`.  Sending the next request is modelled as
always succeeding (a send failure is a transport error outside the model). -/
def fru_data_handler (fru : Fru) (msg : List Nat) : ReadOutcome :=
  if fru.deleted then .complete .eCANCELED fru
  else
    let d0 := msg.getD 0 0
    if backoff_cc d0 = true ∧ fru.fetch_size > MIN_FRU_DATA_FETCH then
      let fru' := { fru with fetch_size := fru.fetch_size - FRU_DATA_FETCH_DECR }
      .next fru' (request_next_data fru')
    else if d0 ≠ 0 then
      if fru.curr_pos ≥ 8 then
        .complete .ok { fru with data_len := fru.curr_pos }
      else
        .complete (.ipmiErr d0) fru
    else if msg.length < 2 then .complete .eINVAL fru
    else
      let count := msg.getD 1 0 <<< fru.access_by_words
      if count = 0 then .complete .eINVAL fru
      else if count > msg.length - 2 then .complete .eINVAL fru
      else
        let fru' := { fru with
          data := some (bufWrite (fru.data.getD []) fru.curr_pos
                          ((msg.drop 2).take count))
          , curr_pos := fru.curr_pos + count }
        if fru'.curr_pos < fru'.data_len then
          .next fru' (request_next_data fru')
        else
          .complete .ok fru'

/-- `fru_inventory_area_handler`.  `allocOk` models whether
`ipmi_mem_alloc(fru->data_len)` succeeds; the fresh buffer contents are
unspecified in C and zero here. -/
def fru_inventory_area_handler (fru : Fru) (msg : List Nat) (allocOk : Bool) :
    ReadOutcome :=
  if fru.deleted then .complete .eCANCELED fru
  else if msg.getD 0 0 ≠ 0 then .complete (.ipmiErr (msg.getD 0 0)) fru
  else if msg.length < 4 then .complete .eINVAL fru
  else
    let fru1 := { fru with
      data_len := msg.getD 1 0 + 256 * msg.getD 2 0
      , access_by_words := msg.getD 3 0 % 2 }
    if fru1.data_len < 8 then .complete .eMSGSIZE fru1
    else if allocOk = false then .complete .eNOMEM fru1
    else
      let fru2 := { fru1 with data := some (List.replicate fru1.data_len 0) }
      .next fru2 (request_next_data fru2)

/-- Drives a read to its conclusion: feed the successive device responses
to `fru_data_handler` for as long as the previous step issued a request. -/
def runRead : ReadOutcome → List (List Nat) → ReadOutcome
  | o, [] => o
  | .complete e f, _ :: _ => .complete e f
  | .next f _, m :: ms => runRead (fru_data_handler f m) ms

/-! ### Write engine -/

/-- `_ipmi_fru_new_update_record`: normalization of a requested
`(offset, length)` span under word access mode.  Mirrors the C exactly:
if the offset is odd, back it up one and lengthen by one; then if the
length is odd, lengthen by one. -/
def normRec (access_by_words : Nat) (offset length : Nat) : Nat × Nat :=
  if access_by_words ≠ 0 then
    let p := if offset % 2 = 1 then (offset - 1, length + 1) else (offset, length)
    (p.1, if p.2 % 2 = 1 then p.2 + 1 else p.2)
  else (offset, length)

/-- `_ipmi_fru_new_update_record` (allocation assumed to succeed): appends
the normalized record at the tail of the update-record queue.  The record
fields are `unsigned short`, hence the reduction mod 2^16 on store. -/
def _ipmi_fru_new_update_record (fru : Fru) (offset length : Nat) : Fru :=
  let p := normRec fru.access_by_words offset length
  { fru with update_recs := fru.update_recs ++ [⟨p.1 % 65536, p.2 % 65536⟩] }

/-- The batching loop of `next_fru_write`.  Starting with `left` bytes of
command budget and cursor `noff`, consume records from the head of the
queue while the queue is nonempty, budget remains, and the head record
starts exactly at the cursor.  Returns the total number of bytes consumed
(the C variable `length`) and the remaining queue.  A head record that is
only partially consumed is split in place (`offset += tlen`,
`length -= tlen`); in that case `left` is exhausted and the loop stops. -/
def nextWriteLoop : Nat → Nat → List FruUpdate → Nat × List FruUpdate
  | _, _, [] => (0, [])
  | left, noff, r :: rest =>
    if 0 < left ∧ noff = r.offset then
      if left < r.length then
        (left, ⟨r.offset + left, r.length - left⟩ :: rest)
      else
        let p := nextWriteLoop (left - r.length) (noff + r.length) rest
        (r.length + p.1, p.2)
    else (0, r :: rest)

/-- `next_fru_write`: builds one `Write FRU Data` command from the head of
the update-record queue (`none` when the queue is empty — the C callers
never call it then).  The command bytes are `device_id`, the 16-bit
little-endian `offset >> access_by_words`, then the payload copied from
`fru->data + offset`.  Saves the command as `last_cmd` and resets
`retry_count`. -/
def next_fru_write (fru : Fru) : Option (List Nat × Fru) :=
  match fru.update_recs with
  | [] => none
  | r :: rest =>
    let offset := r.offset
    let p := nextWriteLoop MAX_FRU_DATA_WRITE offset (r :: rest)
    let enc := offset >>> fru.access_by_words
    let cmd := fru.device_id :: enc % 256 :: (enc / 256) % 256
               :: ((fru.data.getD []).drop offset).take p.1
    some (cmd, { fru with update_recs := p.2, retry_count := 0, last_cmd := cmd })

/-- `write_complete(domain, fru, err)`: on success the decoder's
`write_complete` hook runs first; then the buffer is freed, `in_use`
cleared, the lock released, the domain callback invoked with `err`, and
the write's reference dropped. -/
def write_complete (fru : Fru) (err : FruErr) : Fru × List FruAct :=
  ( { fru with data := none, in_use := false }
  , (if err = .ok then [FruAct.writeCompleteHook] else [])
    ++ [FruAct.freeData, FruAct.clearInUse, FruAct.unlock,
        FruAct.callback err, FruAct.deref] )

/-- Outcome of one `fru_write_handler` invocation: `write_complete` was
called, or the saved last command was re-sent verbatim (device busy), or
the next batched write command was built and sent. -/
inductive WriteOutcome where
  | complete (err : FruErr) (fru : Fru)
  | resend (fru : Fru) (cmd : List Nat)
  | next (fru : Fru) (cmd : List Nat)
deriving DecidableEq

/-- `fru_write_handler`.  Note there is deliberately no `deleted` check: a
FRU write is never cancelled.  The short-write comparison only logs a
warning and is therefore not modelled as a state change. -/
def fru_write_handler (fru : Fru) (msg : List Nat) : WriteOutcome :=
  let d0 := msg.getD 0 0
  if d0 = 0x81 then
    if fru.retry_count ≥ MAX_FRU_WRITE_RETRIES then
      .complete (.ipmiErr d0) fru
    else
      let fru' := { fru with retry_count := fru.retry_count + 1 }
      .resend fru' fru'.last_cmd
  else if d0 ≠ 0 then .complete (.ipmiErr d0) fru
  else if msg.length < 2 then .complete .eINVAL fru
  else
    match next_fru_write fru with
    | some p => .next p.2 p.1
    | none => .complete .ok fru

/-- Result of `start_domain_fru_write`: the FRU state when the function
returns, the ordered side effects, and the value stored in `info->rv`
(returned synchronously to the `ipmi_fru_write` caller). -/
structure WritePrep where
  fru : Fru
  acts : List FruAct
  rv : FruErr
deriving DecidableEq

/-- `start_domain_fru_write`.  `allocOk` models `ipmi_mem_alloc(data_len)`;
the decoder's `write` hook is external and is modelled by its outputs: its
return value `hookErr`, the update records `hookRecs` it appended via
`_ipmi_fru_new_update_record`, and the buffer contents `hookData` it
serialized.  On the `out_err` path the pending update records are freed,
the buffer is freed, `in_use` is cleared and the lock released — but no
user callback is invoked and no reference is dropped; the error is only
stored in `info->rv`. -/
def start_domain_fru_write (fru : Fru) (allocOk : Bool) (hookErr : FruErr)
    (hookRecs : List FruUpdate) (hookData : List Nat) : WritePrep :=
  if allocOk = false then
    { fru := { fru with data := none, in_use := false, update_recs := [] }
    , acts := [FruAct.freeData, FruAct.clearInUse, FruAct.unlock]
    , rv := .eNOMEM }
  else
    let fru1 := { fru with data := some hookData,
                           update_recs := fru.update_recs ++ hookRecs }
    if hookErr ≠ .ok then
      { fru := { fru1 with data := none, in_use := false, update_recs := [] }
      , acts := [FruAct.writeHook, FruAct.freeData, FruAct.clearInUse,
                 FruAct.unlock]
      , rv := hookErr }
    else
      match next_fru_write fru1 with
      | none =>
        { fru := { fru1 with data := none, in_use := false }
        , acts := [FruAct.writeHook, FruAct.freeData, FruAct.clearInUse,
                   FruAct.unlock, FruAct.callback .ok]
        , rv := .ok }
      | some p =>
        { fru := p.2
        , acts := [FruAct.writeHook, FruAct.sendCmd, FruAct.ref, FruAct.unlock]
        , rv := .ok }

/-! ### Helpers for stating properties -/

/-- The multiset of byte addresses covered by an update-record queue, in
queue order. -/
def addrs : List FruUpdate → List Nat
  | [] => []
  | r :: rest => List.range' r.offset r.length ++ addrs rest

/-- The state carried by a read-engine outcome. -/
def stateOf : ReadOutcome → Fru
  | .complete _ f => f
  | .next f _ => f

/-- Did the outcome complete with error 0? -/
def completedOk : ReadOutcome → Bool
  | .complete .ok _ => true
  | _ => false

/-- Is the action a user-callback invocation? -/
def isCallback : FruAct → Bool
  | .callback _ => true
  | _ => false

/-- One read-engine step: some device response makes `fru_data_handler`
issue the next request, moving the engine from `f` to `f'`. -/
inductive ReadStep (f f' : Fru) : Prop where
  | mk (msg : List Nat) (r : ReadReq)
      (h : fru_data_handler f msg = .next f' r) : ReadStep f f'

/-- Reflexive-transitive closure of `ReadStep`: all states the read engine
can occupy while it still has a request outstanding. -/
inductive ReadReaches : Fru → Fru → Prop where
  | refl (f : Fru) : ReadReaches f f
  | step {f g g' : Fru} (hr : ReadReaches f g) (hs : ReadStep g g') :
      ReadReaches f g'

/-- The invariant maintained by the read engine between requests:
the cursor is strictly below the advertised length, and on word-access
devices both the cursor and the fetch size are even. -/
def ReadInv (f : Fru) : Prop :=
  f.curr_pos < f.data_len ∧
  (f.access_by_words = 1 → f.curr_pos % 2 = 0 ∧ f.fetch_size % 2 = 0)

/-- Did the outcome issue another request? -/
def issuedReq : ReadOutcome → Bool
  | .next _ _ => true
  | .complete _ _ => false

/-! ### General lemmas -/

theorem backoff_cc_ne_zero {cc : Nat} (h : backoff_cc cc = true) : cc ≠ 0 := by
  simp only [backoff_cc, IPMI_CANNOT_RETURN_REQ_LENGTH_CC,
    IPMI_REQUESTED_DATA_LENGTH_EXCEEDED_CC, IPMI_REQUEST_DATA_LENGTH_INVALID_CC,
    IPMI_TIMEOUT_CC, IPMI_UNKNOWN_ERR_CC, Bool.or_eq_true, beq_iff_eq] at h
  omega

/-! ### C1: capability back-off -/

/-- **C1.**  During a read, a response whose completion code lies in the
back-off set while `fetch_size > 16` makes the engine decrement
`fetch_size` by exactly 8 (= `FRU_DATA_FETCH_DECR`) and re-issue a read
for the same `curr_pos`; starting from the initial `fetch_size` of 32 this
traverses 32, 24, 16; once `fetch_size` is 16 such a completion code is no
longer absorbed and instead takes the nonzero-completion exit. -/
theorem c1_backoff :
    (∀ (fru : Fru) (msg : List Nat),
      fru.deleted = false →
      backoff_cc (msg.getD 0 0) = true →
      fru.fetch_size > MIN_FRU_DATA_FETCH →
      fru_data_handler fru msg =
        .next { fru with fetch_size := fru.fetch_size - FRU_DATA_FETCH_DECR }
          (request_next_data
            { fru with fetch_size := fru.fetch_size - FRU_DATA_FETCH_DECR }) ∧
      ({ fru with fetch_size := fru.fetch_size - FRU_DATA_FETCH_DECR } : Fru).curr_pos
        = fru.curr_pos ∧
      FRU_DATA_FETCH_DECR = 8) ∧
    (initFru.fetch_size = 32 ∧ 32 - FRU_DATA_FETCH_DECR = 24 ∧
      24 - FRU_DATA_FETCH_DECR = 16 ∧ MIN_FRU_DATA_FETCH = 16) ∧
    (∀ (fru : Fru) (msg : List Nat),
      fru.deleted = false →
      backoff_cc (msg.getD 0 0) = true →
      fru.fetch_size = MIN_FRU_DATA_FETCH →
      fru_data_handler fru msg =
        if fru.curr_pos ≥ 8 then .complete .ok { fru with data_len := fru.curr_pos }
        else .complete (.ipmiErr (msg.getD 0 0)) fru) := by
  refine ⟨?_, ⟨rfl, rfl, rfl, rfl⟩, ?_⟩
  · intro fru msg hdel hcc hfs
    refine ⟨?_, rfl, rfl⟩
    simp only [fru_data_handler, hdel, Bool.false_eq_true, if_false]
    rw [if_pos ⟨hcc, hfs⟩]
  · intro fru msg hdel hcc hfs
    have hne : msg.getD 0 0 ≠ 0 := backoff_cc_ne_zero hcc
    simp only [fru_data_handler, hdel, Bool.false_eq_true, if_false, hfs]
    rw [if_neg (by simp), if_pos hne]

/-- Witness for C1: a `0xCA` (cannot-return-requested-length) response to a
fresh FRU (fetch size 32) re-issues the read with fetch size 24 at the
unchanged cursor. -/
theorem c1_backoff_witness :
    fru_data_handler initFru [0xca] =
      .next { initFru with fetch_size := 24 }
        (request_next_data { initFru with fetch_size := 24 }) :=
  (c1_backoff.1 initFru [0xca] rfl (by decide) (by decide)).1

/-! ### C2: tolerant truncation -/

/-- **C2.**  A nonzero completion code that does not trigger back-off
completes the fetch: with success and `data_len` truncated to `curr_pos`
when `curr_pos ≥ 8`, and with the IPMI error derived from the completion
code when `curr_pos < 8`. -/
theorem c2_tolerant_truncation (fru : Fru) (msg : List Nat)
    (hdel : fru.deleted = false)
    (hcc : msg.getD 0 0 ≠ 0)
    (hnb : ¬(backoff_cc (msg.getD 0 0) = true ∧
             fru.fetch_size > MIN_FRU_DATA_FETCH)) :
    (fru.curr_pos ≥ 8 →
      fru_data_handler fru msg = .complete .ok { fru with data_len := fru.curr_pos }) ∧
    (fru.curr_pos < 8 →
      fru_data_handler fru msg = .complete (.ipmiErr (msg.getD 0 0)) fru) := by
  constructor
  · intro hcp
    simp only [fru_data_handler, hdel, Bool.false_eq_true, if_false]
    rw [if_neg hnb, if_pos hcc, if_pos hcp]
  · intro hcp
    simp only [fru_data_handler, hdel, Bool.false_eq_true, if_false]
    rw [if_neg hnb, if_pos hcc, if_neg (by omega)]

/-- Witness for C2 (scenario R3): error `0xC9` at `curr_pos = 16 ≥ 8` with
advertised length 64 completes successfully with `data_len = 16`. -/
theorem c2_tolerant_truncation_witness :
    fru_data_handler { initFru with curr_pos := 16, data_len := 64 } [0xc9] =
      .complete .ok { initFru with curr_pos := 16, data_len := 16 } :=
  (c2_tolerant_truncation { initFru with curr_pos := 16, data_len := 64 } [0xc9]
    rfl (by decide) (by decide)).1 (by decide)

/-! ### C3: device-busy retry -/

/-- **C3.**  On a `0x81` (device busy) response with `retry_count < 30`
the engine re-sends exactly the saved last-command bytes and increments
`retry_count`; once `retry_count` has reached 30 a further `0x81` completes
the write with the IPMI error for `0x81`; and every command newly built by
`next_fru_write` resets `retry_count` to 0, so the ceiling is per command. -/
theorem c3_busy_retry :
    (∀ (fru : Fru) (msg : List Nat),
      msg.getD 0 0 = 0x81 →
      fru.retry_count < MAX_FRU_WRITE_RETRIES →
      fru_write_handler fru msg =
        .resend { fru with retry_count := fru.retry_count + 1 } fru.last_cmd) ∧
    (∀ (fru : Fru) (msg : List Nat),
      msg.getD 0 0 = 0x81 →
      fru.retry_count ≥ MAX_FRU_WRITE_RETRIES →
      fru_write_handler fru msg = .complete (.ipmiErr 0x81) fru) ∧
    (∀ (fru : Fru) (cmd : List Nat) (fru' : Fru),
      next_fru_write fru = some (cmd, fru') → fru'.retry_count = 0) := by
  refine ⟨?_, ?_, ?_⟩
  · intro fru msg hcc hrc
    unfold fru_write_handler
    rw [hcc]
    rw [if_pos rfl, if_neg (by omega)]
  · intro fru msg hcc hrc
    unfold fru_write_handler
    rw [hcc]
    rw [if_pos rfl, if_pos hrc]
  · intro fru cmd fru' h
    unfold next_fru_write at h
    cases hrec : fru.update_recs with
    | nil => rw [hrec] at h; exact absurd h (by simp)
    | cons r rest =>
        rw [hrec] at h
        simp only [Option.some.injEq, Prod.mk.injEq] at h
        rw [← h.2]

/-- Witness for C3: a busy response at `retry_count = 2` re-sends the saved
bytes `[1, 2, 3, 4]` verbatim and moves `retry_count` to 3. -/
theorem c3_busy_retry_witness :
    fru_write_handler { initFru with retry_count := 2, last_cmd := [1, 2, 3, 4] }
        [0x81] =
      .resend { initFru with retry_count := 3, last_cmd := [1, 2, 3, 4] }
        [1, 2, 3, 4] :=
  c3_busy_retry.1 { initFru with retry_count := 2, last_cmd := [1, 2, 3, 4] }
    [0x81] rfl (by decide)

/-! ### C4: word-access normalization of update records -/

/-- **C4.**  On a word-access device every inserted update record is stored
with its offset rounded down to even and an even length whose span covers
the requested span (and exceeds it by at most the two adjustment bytes);
the requested record `(3, 5)` is stored as `(2, 6)`; on a byte-access
device the record is stored exactly as requested.  The bounds keep the
`unsigned short` record fields from wrapping. -/
theorem c4_update_record_normalization :
    (∀ (fru : Fru) (off len : Nat),
      fru.access_by_words ≠ 0 → off < 65536 → len + 2 < 65536 →
      (_ipmi_fru_new_update_record fru off len).update_recs =
        fru.update_recs ++ [⟨(normRec fru.access_by_words off len).1,
                             (normRec fru.access_by_words off len).2⟩] ∧
      (normRec fru.access_by_words off len).1 = 2 * (off / 2) ∧
      (normRec fru.access_by_words off len).2 % 2 = 0 ∧
      (normRec fru.access_by_words off len).1 ≤ off ∧
      off + len ≤ (normRec fru.access_by_words off len).1 +
                  (normRec fru.access_by_words off len).2 ∧
      (normRec fru.access_by_words off len).2 ≤ len + 2) ∧
    (∀ (fru : Fru) (off len : Nat),
      fru.access_by_words = 0 → off < 65536 → len < 65536 →
      (_ipmi_fru_new_update_record fru off len).update_recs =
        fru.update_recs ++ [⟨off, len⟩]) ∧
    (_ipmi_fru_new_update_record { initFru with access_by_words := 1 } 3 5).update_recs
      = [⟨2, 6⟩] := by
  refine ⟨?_, ?_, by decide⟩
  · intro fru off len habw hoff hlen
    have hn : (normRec fru.access_by_words off len).1 = 2 * (off / 2) ∧
        (normRec fru.access_by_words off len).2 % 2 = 0 ∧
        (normRec fru.access_by_words off len).1 ≤ off ∧
        off + len ≤ (normRec fru.access_by_words off len).1 +
                    (normRec fru.access_by_words off len).2 ∧
        (normRec fru.access_by_words off len).2 ≤ len + 2 := by
      unfold normRec
      rw [if_pos habw]
      dsimp only
      split <;> dsimp only <;> split <;> omega
    refine ⟨?_, hn⟩
    have h1 : (normRec fru.access_by_words off len).1 % 65536 =
        (normRec fru.access_by_words off len).1 := Nat.mod_eq_of_lt (by omega)
    have h2 : (normRec fru.access_by_words off len).2 % 65536 =
        (normRec fru.access_by_words off len).2 := Nat.mod_eq_of_lt (by omega)
    unfold _ipmi_fru_new_update_record
    dsimp only
    rw [h1, h2]
  · intro fru off len habw hoff hlen
    unfold _ipmi_fru_new_update_record normRec
    rw [if_neg (by omega)]
    dsimp only
    rw [Nat.mod_eq_of_lt hoff, Nat.mod_eq_of_lt hlen]

/-- Witness for C4: on a word-access device, inserting the requested span
`(3, 5)` stores the record `(2, 6)` (scenario W3). -/
theorem c4_update_record_normalization_witness :
    (_ipmi_fru_new_update_record { initFru with access_by_words := 1 } 3 5).update_recs
      = ({ initFru with access_by_words := 1 } : Fru).update_recs ++ [⟨2, 6⟩] :=
  (c4_update_record_normalization.1 { initFru with access_by_words := 1 } 3 5
    (by decide) (by decide) (by decide)).1

/-! ### C5: the cursor bound — a code bug -/

/-- **C5** (code bug).  The claim states `curr_pos ≤ data_len` at all
times, *including* after a response whose returned count exceeds the bytes
remaining.  The code checks the returned count only against the response
payload (`count > msg->data_len - 2`), never against
`data_len - curr_pos`: a device that advertises 40 bytes, serves the first
32, and then answers the engine's 8-byte request with a 32-byte response
is accepted; the `memcpy` runs 24 bytes past the end of the 40-byte buffer
and `curr_pos` becomes 64 > 40, after which the fetch completes with
"success". -/
theorem c5_currpos_overrun :
    completedOk (runRead (fru_inventory_area_handler initFru [0, 40, 0, 0] true)
      [0 :: 32 :: List.replicate 32 0, 0 :: 32 :: List.replicate 32 0]) = true ∧
    (stateOf (runRead (fru_inventory_area_handler initFru [0, 40, 0, 0] true)
      [0 :: 32 :: List.replicate 32 0, 0 :: 32 :: List.replicate 32 0])).curr_pos = 64 ∧
    (stateOf (runRead (fru_inventory_area_handler initFru [0, 40, 0, 0] true)
      [0 :: 32 :: List.replicate 32 0, 0 :: 32 :: List.replicate 32 0])).data_len = 40 :=
  ⟨rfl, rfl, rfl⟩

/-! ### C6: parity of issued offsets and counts -/

/-- A `.next` produced by `fru_data_handler` preserves the read invariant
and leaves `access_by_words` and `data_len` unchanged. -/
theorem fru_data_handler_next_inv {f : Fru} {msg : List Nat} {f' : Fru}
    {r : ReadReq} (hInv : ReadInv f) (h : fru_data_handler f msg = .next f' r) :
    ReadInv f' ∧ f'.access_by_words = f.access_by_words ∧
      f'.data_len = f.data_len := by
  unfold fru_data_handler at h
  dsimp only at h
  split at h
  · simp at h
  · split at h
    · rename_i hb
      rw [ReadOutcome.next.injEq] at h
      obtain ⟨hf, -⟩ := h
      subst hf
      obtain ⟨h1, h2⟩ := hInv
      refine ⟨⟨h1, ?_⟩, rfl, rfl⟩
      intro habw
      obtain ⟨hcp, hfs⟩ := h2 habw
      have hm : MIN_FRU_DATA_FETCH = 16 := rfl
      have hd : FRU_DATA_FETCH_DECR = 8 := rfl
      obtain ⟨-, hgt⟩ := hb
      refine ⟨hcp, ?_⟩
      show (f.fetch_size - FRU_DATA_FETCH_DECR) % 2 = 0
      omega
    · split at h
      · split at h <;> simp at h
      · split at h
        · simp at h
        · split at h
          · simp at h
          · split at h
            · simp at h
            · split at h
              · rename_i hlt
                rw [ReadOutcome.next.injEq] at h
                obtain ⟨hf, -⟩ := h
                subst hf
                refine ⟨⟨hlt, ?_⟩, rfl, rfl⟩
                intro habw
                obtain ⟨hcp, hfs⟩ := hInv.2 habw
                refine ⟨?_, hfs⟩
                have hs : msg.getD 1 0 <<< f.access_by_words = msg.getD 1 0 * 2 := by
                  rw [habw, Nat.shiftLeft_eq, pow_one]
                dsimp only at hlt ⊢
                omega
              · simp at h

/-- A successful inventory-area response establishes the read invariant,
given the freshly allocated FRU state (`curr_pos = 0`, even fetch size). -/
theorem area_handler_next_inv {fru : Fru} {msg : List Nat} {f₀ : Fru}
    {r : ReadReq} (hcp : fru.curr_pos = 0) (hfs : fru.fetch_size % 2 = 0)
    (h : fru_inventory_area_handler fru msg true = .next f₀ r) :
    ReadInv f₀ := by
  unfold fru_inventory_area_handler at h
  dsimp only at h
  split at h
  · simp at h
  · split at h
    · simp at h
    · split at h
      · simp at h
      · split at h
        · simp at h
        · rename_i hlen8
          split at h
          · simp at h
          · rw [ReadOutcome.next.injEq] at h
            obtain ⟨hf, -⟩ := h
            subst hf
            constructor
            · show fru.curr_pos < msg.getD 1 0 + 256 * msg.getD 2 0
              omega
            · intro habw
              exact ⟨by show fru.curr_pos % 2 = 0; omega,
                     by show fru.fetch_size % 2 = 0; omega⟩

/-- The read invariant holds at every state the engine reaches between
requests; `access_by_words` and `data_len` stay what the inventory-area
response established. -/
theorem readReaches_inv {f₀ f : Fru} (h0 : ReadInv f₀)
    (h : ReadReaches f₀ f) :
    ReadInv f ∧ f.access_by_words = f₀.access_by_words ∧
      f.data_len = f₀.data_len := by
  induction h with
  | refl => exact ⟨h0, rfl, rfl⟩
  | step hr hs ih =>
      obtain ⟨msg, r, hstep⟩ := hs
      obtain ⟨hi, ha, hd⟩ := ih
      obtain ⟨hi', ha', hd'⟩ := fru_data_handler_next_inv hi hstep
      exact ⟨hi', ha'.trans ha, hd'.trans hd⟩

/-- **C6** (counterexample).  The claim asserts that on a word-access
device every issued count `min(fetch_size, data_len - curr_pos)` is even
for *any* advertised `data_len ≥ 8`.  A device advertising the odd length
9 with word access makes the engine issue its first request — and that
request's pre-shift count is `min(32, 9) = 9`, odd. -/
theorem c6_odd_count_counterexample :
    issuedReq (fru_inventory_area_handler initFru [0, 9, 0, 1] true) = true ∧
    (stateOf (fru_inventory_area_handler initFru [0, 9, 0, 1] true)).access_by_words
      = 1 ∧
    (stateOf (fru_inventory_area_handler initFru [0, 9, 0, 1] true)).data_len = 9 ∧
    8 ≤ (stateOf (fru_inventory_area_handler initFru [0, 9, 0, 1] true)).data_len ∧
    to_read (stateOf (fru_inventory_area_handler initFru [0, 9, 0, 1] true)) % 2
      = 1 :=
  ⟨rfl, rfl, rfl, by decide, rfl⟩

/-- **C6** (amended).  For a word-access device, at every state from which
the engine issues a `Read FRU Data` request, the pre-shift offset
(`curr_pos`) is even, `curr_pos < data_len`, and — provided the advertised
`data_len` is even — the pre-shift count
(`to_read = min(fetch_size, data_len - curr_pos)`) is even as well. -/
theorem c6_word_access_even (fru : Fru) (amsg : List Nat) (f₀ f : Fru)
    (r₀ : ReadReq)
    (hcp : fru.curr_pos = 0) (hfs : fru.fetch_size % 2 = 0)
    (hstart : fru_inventory_area_handler fru amsg true = .next f₀ r₀)
    (habw : f₀.access_by_words = 1)
    (hreach : ReadReaches f₀ f) :
    f.curr_pos % 2 = 0 ∧ f.access_by_words = 1 ∧ f.data_len = f₀.data_len ∧
    f.curr_pos < f.data_len ∧
    (f.data_len % 2 = 0 → to_read f % 2 = 0) := by
  obtain ⟨hi, ha, hd⟩ :=
    readReaches_inv (area_handler_next_inv hcp hfs hstart) hreach
  have habwf : f.access_by_words = 1 := ha.trans habw
  obtain ⟨hcpe, hfse⟩ := hi.2 habwf
  refine ⟨hcpe, habwf, hd, hi.1, ?_⟩
  intro hdl
  unfold to_read
  have h1 := hi.1
  omega

/-- Witness for the amended C6: word-access device advertising 10 bytes;
the first request's pre-shift count `min(32, 10) = 10` is even. -/
theorem c6_word_access_even_witness :
    to_read { initFru with data_len := 10, access_by_words := 1,
                           data := some (List.replicate 10 0) } % 2 = 0 :=
  (c6_word_access_even initFru [0, 10, 0, 1]
      { initFru with data_len := 10, access_by_words := 1,
                     data := some (List.replicate 10 0) }
      { initFru with data_len := 10, access_by_words := 1,
                     data := some (List.replicate 10 0) }
      (request_next_data
        { initFru with data_len := 10, access_by_words := 1,
                       data := some (List.replicate 10 0) })
      rfl rfl (by decide) rfl (.refl _)).2.2.2.2 rfl

/-! ### C7: write batching -/

/-- The batching loop never consumes more than its byte budget. -/
theorem nextWriteLoop_le (left noff : Nat) (recs : List FruUpdate) :
    (nextWriteLoop left noff recs).1 ≤ left := by
  induction recs generalizing left noff with
  | nil => simp [nextWriteLoop]
  | cons r rest ih =>
      unfold nextWriteLoop
      split
      · rename_i hc
        split
        · simp
        · rename_i hlen
          have := ih (left - r.length) (noff + r.length)
          dsimp only
          omega
      · simp

/-- The batching loop consumes exactly the contiguous address range
`[noff, noff + consumed)` from the front of the queue: the addresses
covered by the queue are that interval followed by the addresses of the
remaining queue. -/
theorem addrs_nextWriteLoop (recs : List FruUpdate) (left noff : Nat) :
    addrs recs = List.range' noff (nextWriteLoop left noff recs).1 ++
      addrs (nextWriteLoop left noff recs).2 := by
  induction recs generalizing left noff with
  | nil => simp [nextWriteLoop, addrs]
  | cons r rest ih =>
      unfold nextWriteLoop
      split
      · rename_i hc
        obtain ⟨hl, hoff⟩ := hc
        subst hoff
        split
        · rename_i hlen
          dsimp only
          rw [addrs, addrs, ← List.append_assoc, List.range'_append_1]
          have : r.length - left + left = r.length := by omega
          rw [this]
        · rename_i hlen
          dsimp only
          rw [addrs, ih (left - r.length) (r.offset + r.length),
              ← List.append_assoc, List.range'_append_1]
          have : (nextWriteLoop (left - r.length) (r.offset + r.length) rest).1
              + r.length =
              r.length + (nextWriteLoop (left - r.length) (r.offset + r.length) rest).1 := by
            omega
          rw [this]
      · rw [List.range'_zero, List.nil_append]

/-- Partial consumption: when the head record starts at the cursor but is
longer than the remaining budget, the batch takes exactly the budget and
the head record stays queued with its offset advanced and its length
reduced by the bytes consumed. -/
theorem nextWriteLoop_split_head (left : Nat) (r : FruUpdate)
    (rest : List FruUpdate) (h1 : 0 < left) (h2 : left < r.length) :
    nextWriteLoop left r.offset (r :: rest) =
      (left, ⟨r.offset + left, r.length - left⟩ :: rest) := by
  unfold nextWriteLoop
  rw [if_pos ⟨h1, rfl⟩, if_pos h2]

/-- Batch termination: a record whose offset differs from the cursor is
not merged into the current command. -/
theorem nextWriteLoop_stop (left noff : Nat) (r : FruUpdate)
    (rest : List FruUpdate) (h : noff ≠ r.offset) :
    nextWriteLoop left noff (r :: rest) = (0, r :: rest) := by
  unfold nextWriteLoop
  rw [if_neg (fun hc => h hc.2)]

/-- The payload length of the command batched from head record `r` and
remaining queue `rest`. -/
def batchLen (r : FruUpdate) (rest : List FruUpdate) : Nat :=
  (nextWriteLoop MAX_FRU_DATA_WRITE r.offset (r :: rest)).1

/-- The update-record queue remaining after one batched command. -/
def batchRest (r : FruUpdate) (rest : List FruUpdate) : List FruUpdate :=
  (nextWriteLoop MAX_FRU_DATA_WRITE r.offset (r :: rest)).2

/-- The command bytes `next_fru_write` builds from head record `r`. -/
def batchCmd (fru : Fru) (r : FruUpdate) (rest : List FruUpdate) : List Nat :=
  fru.device_id :: (r.offset >>> fru.access_by_words) % 256
    :: ((r.offset >>> fru.access_by_words) / 256) % 256
    :: ((fru.data.getD []).drop r.offset).take (batchLen r rest)

/-- **C7.**  Every command built by `next_fru_write` from a non-empty
queue has a payload of at most `MAX_FRU_DATA_WRITE` = 16 bytes copied
contiguously from the buffer starting at the head record's offset; the
records it consumes tile exactly the contiguous range
`[head.offset, head.offset + payload)` (so a following record is merged
only when its offset equals the running cursor — a record off the cursor
stops the batch); and a partially consumed head record stays in the queue
with its offset advanced and length reduced by the bytes consumed. -/
theorem c7_write_batching :
    (∀ (fru : Fru) (r : FruUpdate) (rest : List FruUpdate),
      fru.update_recs = r :: rest →
      next_fru_write fru = some (batchCmd fru r rest,
        { fru with update_recs := batchRest r rest, retry_count := 0,
                   last_cmd := batchCmd fru r rest }) ∧
      batchLen r rest ≤ MAX_FRU_DATA_WRITE ∧
      (batchCmd fru r rest).length ≤ MAX_FRU_DATA_WRITE + 3 ∧
      addrs (r :: rest) =
        List.range' r.offset (batchLen r rest) ++ addrs (batchRest r rest)) ∧
    (∀ (left : Nat) (r : FruUpdate) (rest : List FruUpdate),
      0 < left → left < r.length →
      nextWriteLoop left r.offset (r :: rest) =
        (left, ⟨r.offset + left, r.length - left⟩ :: rest)) ∧
    (∀ (left noff : Nat) (r : FruUpdate) (rest : List FruUpdate),
      noff ≠ r.offset →
      nextWriteLoop left noff (r :: rest) = (0, r :: rest)) := by
  refine ⟨?_, nextWriteLoop_split_head, nextWriteLoop_stop⟩
  intro fru r rest h
  refine ⟨?_, nextWriteLoop_le _ _ _, ?_,
          addrs_nextWriteLoop (r :: rest) MAX_FRU_DATA_WRITE r.offset⟩
  · unfold next_fru_write
    rw [h]
    rfl
  · unfold batchCmd
    simp only [List.length_cons, List.length_take]
    have := nextWriteLoop_le MAX_FRU_DATA_WRITE r.offset (r :: rest)
    have hb : batchLen r rest ≤ MAX_FRU_DATA_WRITE := this
    omega

/-- Witness for C7: the adjacent records `(0,8)` and `(8,4)` coalesce into
one 12-byte batch (scenario W2); a 20-byte record at offset 4 with a
16-byte budget is split into `(4..20)` now and `(20,4)` left queued; a
record at offset 2 is not merged when the cursor is 0. -/
theorem c7_write_batching_witness :
    nextWriteLoop 16 4 [⟨4, 20⟩] = (16, [⟨20, 4⟩]) ∧
    nextWriteLoop 16 0 [⟨2, 4⟩] = (0, [⟨2, 4⟩]) ∧
    addrs [⟨0, 8⟩, ⟨8, 4⟩] =
      List.range' 0 (batchLen ⟨0, 8⟩ [⟨8, 4⟩]) ++
        addrs (batchRest ⟨0, 8⟩ [⟨8, 4⟩]) ∧
    batchLen ⟨0, 8⟩ [⟨8, 4⟩] ≤ MAX_FRU_DATA_WRITE :=
  ⟨c7_write_batching.2.1 16 ⟨4, 20⟩ [] (by decide) (by decide),
   c7_write_batching.2.2 16 0 ⟨2, 4⟩ [] (by decide),
   (c7_write_batching.1 { initFru with update_recs := [⟨0, 8⟩, ⟨8, 4⟩] }
     ⟨0, 8⟩ [⟨8, 4⟩] rfl).2.2.2,
   (c7_write_batching.1 { initFru with update_recs := [⟨0, 8⟩, ⟨8, 4⟩] }
     ⟨0, 8⟩ [⟨8, 4⟩] rfl).2.1⟩

/-! ### C8: empty update queue after the write hook -/

/-- The exact result of `start_domain_fru_write` when the hook succeeds
with an empty queue. -/
theorem start_write_empty_eq (fru : Fru) (hookData : List Nat)
    (h : fru.update_recs = []) :
    start_domain_fru_write fru true .ok [] hookData =
      ⟨{ fru with data := none, in_use := false },
       [FruAct.writeHook, FruAct.freeData, FruAct.clearInUse, FruAct.unlock,
        FruAct.callback .ok], .ok⟩ := by
  obtain ⟨d, iu, di, abw, da, dl, cp, fs, ur, lc, rc, rd⟩ := fru
  have h' : ur = [] := h
  subst h'
  rfl

/-- **C8.**  When the decoder's `write` hook succeeds and leaves the
update-record queue empty, `start_domain_fru_write` completes immediately
as success: the fresh buffer is freed (data pointer null), `in_use` is
cleared, the lock is released and the user callback runs with error 0 —
and no `Write FRU Data` command is ever handed to the transport. -/
theorem c8_empty_queue_write (fru : Fru) (hookData : List Nat)
    (h : fru.update_recs = []) :
    start_domain_fru_write fru true .ok [] hookData =
      ⟨{ fru with data := none, in_use := false },
       [FruAct.writeHook, FruAct.freeData, FruAct.clearInUse, FruAct.unlock,
        FruAct.callback .ok], .ok⟩ ∧
    FruAct.sendCmd ∉ (start_domain_fru_write fru true .ok [] hookData).acts := by
  refine ⟨start_write_empty_eq fru hookData h, ?_⟩
  rw [start_write_empty_eq fru hookData h]
  show FruAct.sendCmd ∉ [FruAct.writeHook, FruAct.freeData, FruAct.clearInUse,
                         FruAct.unlock, FruAct.callback .ok]
  decide

/-- Witness for C8: a FRU with an empty queue and a 16-byte buffer. -/
theorem c8_empty_queue_write_witness :
    start_domain_fru_write { initFru with data_len := 16 } true .ok []
        (List.replicate 16 0) =
      ⟨{ initFru with data_len := 16, data := none, in_use := false },
       [FruAct.writeHook, FruAct.freeData, FruAct.clearInUse, FruAct.unlock,
        FruAct.callback .ok], .ok⟩ :=
  (c8_empty_queue_write { initFru with data_len := 16 }
    (List.replicate 16 0) rfl).1

/-! ### C9: error propagation -/

/-- **C9** (counterexample).  The claim says *every* fatal write error —
"including errors arising in the write-preparation path" — flows through a
completion routine that invokes the user callback with the error and drops
the operation's reference.  But when the decoder's `write` hook fails,
`start_domain_fru_write` takes its `out_err` exit: it frees the buffer,
clears `in_use` and unlocks, then merely stores the error in `info->rv`
for `ipmi_fru_write` to return synchronously — no callback is invoked and
no reference is dropped. -/
theorem c9_prep_error_counterexample :
    (start_domain_fru_write { initFru with data_len := 16 } true .eINVAL []
        (List.replicate 16 0)).rv = .eINVAL ∧
    ((start_domain_fru_write { initFru with data_len := 16 } true .eINVAL []
        (List.replicate 16 0)).acts.filter isCallback) = [] ∧
    FruAct.deref ∉ (start_domain_fru_write { initFru with data_len := 16 } true
        .eINVAL [] (List.replicate 16 0)).acts := by
  refine ⟨rfl, rfl, ?_⟩
  decide

/-- **C9** (amended).  Every fatal error raised in a *response handler*
flows through `fetch_complete` / `write_complete`, which, in this order,
free the raw buffer (nulling the data pointer), clear `in_use`, release
the lock, invoke the installed user callback with the error, and drop the
operation's reference.  Errors in the write-preparation path (buffer
allocation failure or decoder write-hook failure) also free the buffer,
clear `in_use` and release the lock — but they return the error
synchronously to the caller without invoking the callback or dropping a
reference. -/
theorem c9_error_propagation :
    (∀ (fru : Fru) (err decodeRes : FruErr), err ≠ .ok →
      fetch_complete fru err decodeRes =
        ({ fru with data := none, in_use := false },
         [FruAct.freeData, FruAct.clearInUse, FruAct.unlock,
          FruAct.callback err, FruAct.deref])) ∧
    (∀ (fru : Fru) (err : FruErr), err ≠ .ok →
      write_complete fru err =
        ({ fru with data := none, in_use := false },
         [FruAct.freeData, FruAct.clearInUse, FruAct.unlock,
          FruAct.callback err, FruAct.deref])) ∧
    (∀ (fru : Fru) (hookErr : FruErr) (hookRecs : List FruUpdate)
        (hookData : List Nat), hookErr ≠ .ok →
      start_domain_fru_write fru true hookErr hookRecs hookData =
        ⟨{ fru with data := none, in_use := false, update_recs := [] },
         [FruAct.writeHook, FruAct.freeData, FruAct.clearInUse, FruAct.unlock],
         hookErr⟩) ∧
    (∀ (fru : Fru) (hookErr : FruErr) (hookRecs : List FruUpdate)
        (hookData : List Nat),
      start_domain_fru_write fru false hookErr hookRecs hookData =
        ⟨{ fru with data := none, in_use := false, update_recs := [] },
         [FruAct.freeData, FruAct.clearInUse, FruAct.unlock], .eNOMEM⟩) := by
  refine ⟨?_, ?_, ?_, ?_⟩
  · intro fru err decodeRes herr
    unfold fetch_complete
    rw [if_neg herr, if_neg herr]
    rfl
  · intro fru err herr
    unfold write_complete
    rw [if_neg herr]
    rfl
  · intro fru hookErr hookRecs hookData herr
    unfold start_domain_fru_write
    rw [if_neg (by simp)]
    dsimp only
    rw [if_pos herr]
  · intro fru hookErr hookRecs hookData
    unfold start_domain_fru_write
    rw [if_pos rfl]

/-- Witness for the amended C9: an `EINVAL` fetch failure runs the exact
free / clear / unlock / callback / deref sequence. -/
theorem c9_error_propagation_witness :
    fetch_complete initFru .eINVAL .ok =
      ({ initFru with data := none, in_use := false },
       [FruAct.freeData, FruAct.clearInUse, FruAct.unlock,
        FruAct.callback .eINVAL, FruAct.deref]) :=
  c9_error_propagation.1 initFru .eINVAL .ok (by decide)

/-! ### C10: the raw buffer never survives a completion -/

/-- **C10.**  Whatever way a read or write completes — error or success —
the raw buffer is freed and the data pointer is null and `in_use` is 0
*before* the user callback runs (the callback action is preceded in each
completion's effect sequence by `freeData` and `clearInUse`), and the
decoder-result slot `rec_data` is untouched by the engine: only the
decoder's result survives a successful fetch. -/
theorem c10_buffer_released :
    (∀ (fru : Fru) (err decodeRes : FruErr),
      (fetch_complete fru err decodeRes).1.data = none ∧
      (fetch_complete fru err decodeRes).1.in_use = false ∧
      (fetch_complete fru err decodeRes).1.rec_data = fru.rec_data ∧
      (fetch_complete fru err decodeRes).2 =
        (if err = .ok then [FruAct.callDecoders] else []) ++
        [FruAct.freeData, FruAct.clearInUse, FruAct.unlock,
         FruAct.callback (if err = .ok then decodeRes else err),
         FruAct.deref]) ∧
    (∀ (fru : Fru) (err : FruErr),
      (write_complete fru err).1.data = none ∧
      (write_complete fru err).1.in_use = false ∧
      (write_complete fru err).1.rec_data = fru.rec_data ∧
      (write_complete fru err).2 =
        (if err = .ok then [FruAct.writeCompleteHook] else []) ++
        [FruAct.freeData, FruAct.clearInUse, FruAct.unlock,
         FruAct.callback err, FruAct.deref]) ∧
    (∀ (fru : Fru) (hookData : List Nat),
      (start_domain_fru_write { fru with update_recs := [] } true .ok []
        hookData).fru.data = none ∧
      (start_domain_fru_write { fru with update_recs := [] } true .ok []
        hookData).fru.in_use = false ∧
      (start_domain_fru_write { fru with update_recs := [] } true .ok []
        hookData).acts =
        [FruAct.writeHook, FruAct.freeData, FruAct.clearInUse, FruAct.unlock,
         FruAct.callback .ok]) := by
  refine ⟨?_, ?_, ?_⟩
  · intro fru err decodeRes
    exact ⟨rfl, rfl, rfl, rfl⟩
  · intro fru err
    exact ⟨rfl, rfl, rfl, rfl⟩
  · intro fru hookData
    have h := start_write_empty_eq { fru with update_recs := [] } hookData rfl
    rw [h]
    exact ⟨rfl, rfl, rfl⟩
